import Mathlib

/-!
Verification development for the `swapable` library (automated liquidity
pools on Symbol).  The TypeScript sources are embedded shallowly:

* plain `number` quantities become `ℚ` (and `ℝ` where `Math.sqrt` occurs);
* fallible methods (`canExecute`, `execute`, `prepare`, the argument
  assertions) become `Except Failure _` values;
* the asynchronous ledger reads performed by `AutomatedPool.synchronize`
  are reified as explicit `ReadOutcome` parameters;
* symbol-sdk transactions become a small inductive type carrying exactly
  the fields the library chooses when building them.
-/

set_option maxHeartbeats 1000000

namespace Swapable

/-- A symbol-sdk `PublicAccount`, reduced to the address string, which is
the only account component the library compares (`actor.address.equals(...)`)
or uses as a transaction recipient. -/
structure PublicAccount where
  address : String
deriving Repr, DecidableEq

/-- `new PublicAccount()` — the empty account used as a `getInput` default
value throughout the commands. -/
def emptyAccount : PublicAccount := ⟨""⟩

/-- `AssetSource` (src/models/AssetSource.ts): the source network identity
string of an asset. -/
structure AssetSource where
  source : String
deriving Repr, DecidableEq

/-- `AssetIdentifier` (src/models/AssetIdentifier.ts): a 4-byte id rendered
as hex together with the owning target account. -/
structure AssetIdentifier where
  id : String
  target : PublicAccount
deriving Repr, DecidableEq

/-- A symbol-sdk `MosaicId` as the library constructs it: always via
`MosaicId.createFromNonce(MosaicNonce.createFromHex(id), owner.address)`,
a deterministic (and for distinct inputs distinct) function of the nonce
hex string and the owner address; we keep the injective pair itself. -/
structure MosaicId where
  nonce : String
  owner : String
deriving Repr, DecidableEq

/-- Rendering of `MosaicId.toHex()`: an injective stand-in for the SDK hex
form, adequate because the library only embeds it opaquely in messages. -/
def MosaicId.toHex (m : MosaicId) : String := m.nonce ++ m.owner

/-- `AssetIdentifier.toMosaicId()` (src/models/AssetIdentifier.ts). -/
def AssetIdentifier.toMosaicId (i : AssetIdentifier) : MosaicId :=
  ⟨i.id, i.target.address⟩

/-- `AssetAmount` (src/models/AssetAmount.ts): identifier plus a plain
numeric amount. -/
structure AssetAmount where
  identifier : AssetIdentifier
  amount : ℚ
deriving Repr, DecidableEq

/-- `CommandOption<ValueType>` (src/models/CommandOption.ts). -/
structure CommandOption (α : Type) where
  name : String
  value : α
deriving Repr, DecidableEq

/-- `TransactionParameters` (src/models/TransactionParameters.ts): epoch
adjustment, deadline and optional max fee.  The `Deadline` object and the
`UInt64` fee are kept as plain naturals. -/
structure TransactionParameters where
  epochAjustment : Nat
  deadline : Nat
  maxFeeInt : Option Nat
deriving Repr, DecidableEq

/-- The `maxFee` member computed in the `TransactionParameters` constructor:
`UInt64.fromUint(maxFeeInt)` when `maxFeeInt` was given, else `undefined`. -/
def TransactionParameters.maxFee (p : TransactionParameters) : Option Nat :=
  p.maxFeeInt

/-- `AllowanceResult` (unnamed/part_010): a status flag plus an optional
message, the sole output of authorization checks. -/
structure AllowanceResult where
  status : Bool
  message : Option String
deriving Repr, DecidableEq

/-- The one-argument `new AllowanceResult(status)` constructor call used by
all commands: the message defaults to `undefined`. -/
def AllowanceResult.mk1 (status : Bool) : AllowanceResult := ⟨status, none⟩

/-- The `Symbol.Reader` network adapter, reduced to the three fields the
embedded code paths actually read: `networkType`, `generationHash` and
`feeMosaicId`. -/
structure Reader where
  networkType : Nat
  generationHash : String
  feeMosaicId : MosaicId
deriving Repr, DecidableEq

/-- `Context` (src/contracts/Context.ts): revision, actor, reader,
transaction parameters and the optional argument list (`argv` may be
`undefined`, kept as `Option`).  The key provider is irrelevant to every
embedded path and omitted. -/
structure Context (α : Type) where
  revision : Nat
  actor : PublicAccount
  reader : Reader
  parameters : TransactionParameters
  argv : Option (List (CommandOption α))
deriving Repr, DecidableEq

/-- `Context.getInput(name, defaultValue)` (src/contracts/Context.ts):
returns the default when `argv` is `undefined` or empty, otherwise the
value of the first option whose name matches, else the default. -/
def Context.getInput {α : Type} (ctx : Context α) (name : String)
    (defaultValue : α) : α :=
  match ctx.argv with
  | none => defaultValue
  | some l =>
    if l.isEmpty then defaultValue
    else
      match l.find? (fun opt => opt.name == name) with
      | some it => it.value
      | none => defaultValue

/-- The `getInput(name, null)` presence probe used by
`BaseCommand.assertHasMandatoryArguments`: `none` models the `null`
outcome (no option values are themselves `null` in any embedded call). -/
def Context.getInputOpt {α : Type} (ctx : Context α) (name : String) :
    Option α :=
  match ctx.argv with
  | none => none
  | some l =>
    if l.isEmpty then none
    else (l.find? (fun opt => opt.name == name)).map (fun it => it.value)

/-- `Context.setInput(name, value)` (src/contracts/Context.ts): initialise
`argv` to `[]` when `undefined`, then push a new option at the end. -/
def Context.setInput {α : Type} (ctx : Context α) (name : String)
    (value : α) : Context α :=
  { ctx with argv := some ((ctx.argv.getD []) ++ [⟨name, value⟩]) }

/-! ### SHA3-512 (symbol-sdk `SHA3Hasher.func` with length 64)

`AssetIdentifier.createForSource` hashes with sha3-512.  The permutation is
implemented over `Nat` with explicit `% 2 ^ 64` reductions; bytes are values
below 256. -/

/-- One step of the degree-8 LFSR `x^8 + x^6 + x^5 + x^4 + 1` that
generates the Keccak round-constant bits. -/
def rcStep (r : Nat) : Nat := (2 * r ^^^ r / 128 * 0x71) % 256

/-- LFSR state after `t` steps from 1; its low bit is `rc(t)`. -/
def rcIter : Nat → Nat
  | 0 => 1
  | t + 1 => rcStep (rcIter t)

/-- Round constant of round `i`:
`RC[i] = sum over j of rc(j + 7 i) * 2 ^ (2 ^ j - 1)`. -/
def keccakRCval (i : Nat) : Nat :=
  (List.range 7).foldl (fun acc j => acc + rcIter (j + 7 * i) % 2 * 2 ^ (2 ^ j - 1)) 0

/-- The 24 Keccak round constants. -/
def keccakRC : List Nat := (List.range 24).map keccakRCval

/-- The lane-index image of the pi step:
`(x, y) ↦ (y, (2 x + 3 y) % 5)` on indices `i = x + 5 y`. -/
def keccakPiDest (i : Nat) : Nat :=
  i / 5 + 5 * ((2 * (i % 5) + 3 * (i / 5)) % 5)

/-- Source lane index feeding destination lane `j` in the pi step. -/
def keccakPiSrc (j : Nat) : Nat :=
  ((List.range 25).find? (fun i => keccakPiDest i == j)).getD 0

/-- The rho rotation offsets `(t + 1)(t + 2) / 2 % 64` listed along the
pi orbit of lane `(1, 0)` as pairs `(lane index, offset)`; lane 0 keeps
offset 0. -/
def rhoWalk : Nat → Nat → Nat → Nat → List (Nat × Nat)
  | 0, _, _, _ => []
  | n + 1, t, x, y =>
    (x + 5 * y, (t + 1) * (t + 2) / 2 % 64) ::
      rhoWalk n (t + 1) y ((2 * x + 3 * y) % 5)

/-- Rho rotation offset of a lane index. -/
def keccakRho (i : Nat) : Nat :=
  (((rhoWalk 24 0 1 0).find? (fun p => p.1 == i)).map (fun p => p.2)).getD 0

/-- Lane accessor on a 25-lane state held as a list. -/
def lane (s : List Nat) (i : Nat) : Nat := s.getD i 0

/-- 64-bit left rotation on `Nat` (sound for inputs below `2 ^ 64`). -/
def rotl64 (x n : Nat) : Nat :=
  (x * 2 ^ (n % 64) + x / 2 ^ (64 - n % 64)) % 2 ^ 64

/-- 64-bit complement. -/
def not64 (x : Nat) : Nat := x ^^^ (2 ^ 64 - 1)

/-- Keccak theta step. -/
def keccakTheta (s : List Nat) : List Nat :=
  let c := (List.range 5).map
    (fun x => lane s x ^^^ lane s (x + 5) ^^^ lane s (x + 10)
      ^^^ lane s (x + 15) ^^^ lane s (x + 20))
  let d := (List.range 5).map
    (fun x => lane c ((x + 4) % 5) ^^^ rotl64 (lane c ((x + 1) % 5)) 1)
  (List.range 25).map (fun i => lane s i ^^^ lane d (i % 5))

/-- Keccak rho and pi steps combined. -/
def keccakRhoPi (s : List Nat) : List Nat :=
  (List.range 25).map
    (fun j => rotl64 (lane s (keccakPiSrc j)) (keccakRho (keccakPiSrc j)))

/-- Keccak chi step. -/
def keccakChi (s : List Nat) : List Nat :=
  (List.range 25).map
    (fun i =>
      let row := 5 * (i / 5)
      lane s i ^^^ (not64 (lane s ((i % 5 + 1) % 5 + row)) &&& lane s ((i % 5 + 2) % 5 + row)))

/-- One Keccak round with round constant `rc`. -/
def keccakRound (s : List Nat) (rc : Nat) : List Nat :=
  let t := keccakChi (keccakRhoPi (keccakTheta s))
  t.set 0 (lane t 0 ^^^ rc)

/-- The Keccak-f[1600] permutation. -/
def keccakF (s : List Nat) : List Nat := keccakRC.foldl keccakRound s

/-- Interpret up to eight bytes as a little-endian 64-bit lane. -/
def bytesToLane (bs : List Nat) : Nat :=
  bs.foldr (fun b acc => acc * 256 + b) 0

/-- Absorb one 72-byte rate block (sha3-512 rate) into the state and
permute. -/
def absorbBlock (s : List Nat) (block : List Nat) : List Nat :=
  keccakF ((List.range 25).map
    (fun i => if i < 9 then lane s i ^^^ bytesToLane ((block.drop (8 * i)).take 8)
      else lane s i))

/-- Absorb `n` consecutive 72-byte blocks of `l`. -/
def absorbBlocks : Nat → List Nat → List Nat → List Nat
  | 0, s, _ => s
  | n + 1, s, l => absorbBlocks n (absorbBlock s (l.take 72)) (l.drop 72)

/-- The sha3 domain padding (`0x06 … 0x80`) for a message of `len` bytes
at rate 72. -/
def sha3Pad (len : Nat) : List Nat :=
  let q := 72 - len % 72
  if q = 1 then [0x86]
  else 0x06 :: (List.replicate (q - 2) 0 ++ [0x80])

/-- sha3-512 of a byte sequence: pad, absorb, squeeze 64 bytes (the rate
exceeds the digest size, so a single squeeze suffices). -/
def sha3_512 (msg : List Nat) : List Nat :=
  let padded := msg ++ sha3Pad msg.length
  let s := absorbBlocks (padded.length / 72) (List.replicate 25 0) padded
  (List.range 64).map (fun i => lane s (i / 8) / 2 ^ (8 * (i % 8)) % 256)

/-- UTF-8 encoding of one character (symbol-sdk `Convert.utf8ToUint8`). -/
def utf8Bytes (c : Char) : List Nat :=
  let n := c.toNat
  if n < 0x80 then [n]
  else if n < 0x800 then [0xC0 + n / 64, 0x80 + n % 64]
  else if n < 0x10000 then
    [0xE0 + n / 4096, 0x80 + n / 64 % 64, 0x80 + n % 64]
  else
    [0xF0 + n / 262144, 0x80 + n / 4096 % 64, 0x80 + n / 64 % 64, 0x80 + n % 64]

/-- UTF-8 encoding of a string. -/
def utf8Encode (s : String) : List Nat :=
  (s.data.map utf8Bytes).foldr (· ++ ·) []

/-- Lowercase hex digit. -/
def hexDigit (n : Nat) : Char :=
  if n < 10 then Char.ofNat (48 + n) else Char.ofNat (87 + n)

/-- `b.toString(16).padStart(2, '0')` for a byte `b < 256`: exactly two
lowercase hex digits. -/
def byteToHex (b : Nat) : String := String.mk [hexDigit (b / 16), hexDigit (b % 16)]

/-- `AssetIdentifier.createForSource(name, target, source)`
(src/models/AssetIdentifier.ts): sha3-512 over the UTF-8 bytes of
`target-address || '-' || source || '-' || name`, then the four left-most
bytes hex-encoded by a fold. -/
def AssetIdentifier.createForSource (name : String) (target : PublicAccount)
    (source : AssetSource) : AssetIdentifier :=
  let data := target.address ++ "-" ++ source.source ++ "-" ++ name
  let hash := sha3_512 (utf8Encode data)
  let left4b := (hash.take 4).foldl (fun s b => s ++ byteToHex b) ""
  ⟨left4b, target⟩

/-! ### Command execution layer -/

/-- The error kinds raised synchronously by the command framework
(src/errors/*, unnamed/part_008 and part_010). -/
inductive Failure where
  | missingArgument (message : String)
  | operationForbidden (message : String)
  | emptyContract (message : String)
deriving Repr, DecidableEq

/-- The payload of a `CommandOption` as the five pool commands use it: a
public account, an asset amount or an asset identifier. -/
inductive Value where
  | acct (a : PublicAccount)
  | amount (a : AssetAmount)
  | assetId (i : AssetIdentifier)
deriving Repr, DecidableEq

/-- `getInput` followed by the unchecked `as PublicAccount` cast of the
commands; a value of another shape never occurs in a well-formed call and
is mapped to the default. -/
def getAccountInput (ctx : Context Value) (name : String)
    (defaultValue : PublicAccount) : PublicAccount :=
  match ctx.getInputOpt name with
  | some (.acct a) => a
  | _ => defaultValue

/-- `getInput` followed by the unchecked `as AssetAmount` cast. -/
def getAmountInput (ctx : Context Value) (name : String)
    (defaultValue : AssetAmount) : AssetAmount :=
  match ctx.getInputOpt name with
  | some (.amount a) => a
  | _ => defaultValue

/-- `getInput` followed by the unchecked `as AssetIdentifier` cast. -/
def getAssetIdInput (ctx : Context Value) (name : String)
    (defaultValue : AssetIdentifier) : AssetIdentifier :=
  match ctx.getInputOpt name with
  | some (.assetId i) => i
  | _ => defaultValue

/-- The `Symbol_Testnet_SWP` default option value used by the commands. -/
def symbolTestnetSWP : AssetIdentifier := ⟨"00000001", emptyAccount⟩

/-- The `Symbol_Testnet_XYM` default option value used by the commands. -/
def symbolTestnetXYM : AssetIdentifier := ⟨"00000002", emptyAccount⟩

/-- `MosaicInfo` for the pool shares mosaic, reduced to the two fields the
library reads: the mosaic id and the current supply (`supply.compact()`). -/
structure MosaicInfo where
  id : MosaicId
  supply : ℚ
deriving Repr, DecidableEq

/-- `AccountInfo` for the target account, reduced to the held balances
(`mosaics`) the reserve lookup walks. -/
structure AccountInfo where
  mosaics : List (MosaicId × ℚ)
deriving Repr, DecidableEq

/-- The mutable state of an `Executable` command instance
(src/standards/Swapable/commands/Executable.ts): its execution context,
the pool shares asset identifier, and the snapshot fields `mosaicInfo` /
`reserveInfo` injected by the orchestrator (possibly still `undefined`). -/
structure Executable where
  context : Context Value
  identifier : AssetIdentifier
  mosaicInfo : Option MosaicInfo
  reserveInfo : Option AccountInfo
deriving Repr, DecidableEq

/-- `this.target`, set in the `Executable` constructor to
`this.identifier.target`. -/
def Executable.target (e : Executable) : PublicAccount := e.identifier.target

/-- Modelled from the spec: the `Executable.reserveOf` helper called by
`Swap.canExecute`, `Swap.transactions` and `AddLiquidity.transactions` is
absent from the provided sources (only its call sites appear).  Per the
spec, a reserve is "the current held balance of one paired asset within
the pool's target identity", read from the synchronized `reserveInfo`
snapshot; a missing snapshot or a missing balance entry reads as zero. -/
def Executable.reserveOf (e : Executable) (ident : AssetIdentifier) : ℚ :=
  match e.reserveInfo with
  | none => 0
  | some info =>
    match info.mosaics.find? (fun p => p.1 == ident.toMosaicId) with
    | some p => p.2
    | none => 0

/-- `BaseCommand.assertHasMandatoryArguments(argv, fields)`
(src/contracts/BaseCommand.ts): walk the declared field names in order and
throw `FailureMissingArgument` at the first one whose `getInput(_, null)`
probe comes back `null`; return `true` when all are present. -/
def assertHasMandatoryArguments (ctx : Context Value) :
    List String → Except Failure Bool
  | [] => .ok true
  | f :: rest =>
    match ctx.getInputOpt f with
    | none => .error (.missingArgument ("Missing argument \"" ++ f ++ "\""))
    | some _ => assertHasMandatoryArguments ctx rest

/-- Declared mandatory arguments of `CreatePool`. -/
def createPoolArguments : List String := ["provider", "input_x", "input_y"]

/-- Declared mandatory arguments of `AddLiquidity`. -/
def addLiquidityArguments : List String := ["provider", "input_x", "input_y"]

/-- Declared mandatory arguments of `Swap`. -/
def swapArguments : List String := ["trader", "input_x", "output"]

/-- Declared mandatory arguments of `Publish`. -/
def publishArguments : List String := ["registry"]

/-- `CreatePool.canExecute` (src/commands/CreatePool.ts): assert the
mandatory arguments, then allow anyone. -/
def Executable.createPoolCanExecute (e : Executable) (_actor : PublicAccount) :
    Except Failure AllowanceResult := do
  let _ ← assertHasMandatoryArguments e.context createPoolArguments
  pure (AllowanceResult.mk1 true)

/-- `AddLiquidity.canExecute` (src/commands/AddLiquidity.ts): assert the
mandatory arguments, then require both snapshot halves to be present. -/
def Executable.addLiquidityCanExecute (e : Executable) (_actor : PublicAccount) :
    Except Failure AllowanceResult := do
  let _ ← assertHasMandatoryArguments e.context addLiquidityArguments
  pure (AllowanceResult.mk1 (e.reserveInfo.isSome && e.mosaicInfo.isSome))

/-- The `input_x` read of `Swap` with its default
`new AssetAmount(Symbol_Testnet_SWP, 10)`. -/
def Executable.swapInputX (e : Executable) : AssetAmount :=
  getAmountInput e.context "input_x" ⟨symbolTestnetSWP, 10⟩

/-- `Swap.canExecute` (src/commands/Swap.ts): assert the mandatory
arguments, then require the snapshot, a positive input amount, and a
reserve strictly larger than the input amount. -/
def Executable.swapCanExecute (e : Executable) (_actor : PublicAccount) :
    Except Failure AllowanceResult := do
  let _ ← assertHasMandatoryArguments e.context swapArguments
  let input_x := e.swapInputX
  let reserve_x := e.reserveOf input_x.identifier
  pure (AllowanceResult.mk1 (e.reserveInfo.isSome && e.mosaicInfo.isSome
    && decide (input_x.amount > 0)
    && decide (reserve_x > input_x.amount)))

/-- `Publish.canExecute` (unnamed/part_003): assert the mandatory
arguments, then allow only the pool's target account. -/
def Executable.publishCanExecute (e : Executable) (actor : PublicAccount) :
    Except Failure AllowanceResult := do
  let _ ← assertHasMandatoryArguments e.context publishArguments
  pure (AllowanceResult.mk1 (actor.address == e.target.address))

/-- The default `Executable.canExecute`
(src/standards/Swapable/commands/Executable.ts) for a command that does
not override it: assert the instance's declared arguments, then allow only
the target account ("owner only"). -/
def Executable.defaultCanExecute (e : Executable) (arguments : List String)
    (actor : PublicAccount) : Except Failure AllowanceResult := do
  let _ ← assertHasMandatoryArguments e.context arguments
  pure (AllowanceResult.mk1 (actor.address == e.target.address))

/-! ### Transactions -/

/-- Transfer message: `EmptyMessage` or `PlainMessage.create(payload)`. -/
inductive Message where
  | empty
  | plain (payload : String)
deriving Repr, DecidableEq

/-- The symbol-sdk transactions the five commands build, carrying exactly
the arguments the library passes to the SDK factory calls.  `A` is the
quantity type (`ℚ`, or `ℝ` for `CreatePool` whose share quantity involves
`Math.sqrt`).  Scoped metadata keys are kept as the generating strings
(`KeyGenerator.generateUInt64Key` is an injective derivation the embedded
paths never invert). -/
inductive Tx (A : Type) where
  | transfer (deadline : Nat) (recipientAddress : String)
      (mosaics : List (MosaicId × A)) (message : Message) (networkType : Nat)
  | accountMetadata (deadline : Nat) (targetAddress : String)
      (scopedKey : String) (valueSize : Nat) (value : String) (networkType : Nat)
  | mosaicDefinition (deadline : Nat) (nonce : String) (id : MosaicId)
      (supplyMutable transferable restrictable : Bool)
      (divisibility : Nat) (duration : Nat) (networkType : Nat)
  | mosaicSupplyChange (deadline : Nat) (id : MosaicId) (increase : Bool)
      (delta : A) (networkType : Nat)
  | mosaicMetadata (deadline : Nat) (targetAddress : String)
      (scopedKey : String) (targetMosaic : MosaicId) (valueSize : Nat)
      (value : String) (networkType : Nat)
  | accountMosaicRestriction (deadline : Nat) (flags : String)
      (additions : List MosaicId) (deletions : List MosaicId) (networkType : Nat)
deriving Repr, DecidableEq

/-- An inner transaction after `toAggregate(signer)`: the transaction
paired with its required signer. -/
structure InnerTx (A : Type) where
  tx : Tx A
  signer : PublicAccount
deriving Repr, DecidableEq

/-- The non-null-asserted `this.mosaicInfo?.id!` read used by
`AddLiquidity` and `Swap` when building transactions (`canExecute`
guarantees presence on every authorized path). -/
def Executable.mosaicInfoId (e : Executable) : MosaicId :=
  match e.mosaicInfo with
  | some m => m.id
  | none => ⟨"", ""⟩

/-- `CreatePool.descriptor`. -/
def Executable.createPoolDescriptor (e : Executable) : String :=
  "Swapable(v" ++ toString e.context.revision ++ ")" ++ ":create-pool:" ++ e.identifier.id

/-- `AddLiquidity.descriptor`. -/
def Executable.addLiquidityDescriptor (e : Executable) : String :=
  "Swapable(v" ++ toString e.context.revision ++ ")" ++ ":add-liquidity:" ++ e.identifier.id

/-- `Swap.descriptor`. -/
def Executable.swapDescriptor (e : Executable) : String :=
  "Swapable(v" ++ toString e.context.revision ++ ")" ++ ":swap:" ++ e.identifier.id

/-- `Publish.descriptor`. -/
def Executable.publishDescriptor (e : Executable) : String :=
  "Swapable(v" ++ toString e.context.revision ++ ")" ++ ":publish:" ++ e.identifier.id

/-- The share quantity computed by `CreatePool.transactions`:
`1_000_000 * Math.sqrt(input_x.amount * input_y.amount)`. -/
noncomputable def createPoolSharesFormula (x y : ℚ) : ℝ :=
  1000000 * Real.sqrt ((x : ℝ) * (y : ℝ))

/-- `CreatePool.transactions` (src/commands/CreatePool.ts): the ten inner
transactions in source order with their signers. -/
noncomputable def Executable.createPoolTransactions (e : Executable) :
    List (InnerTx ℝ) :=
  let deadline := e.context.parameters.deadline
  let net := e.context.reader.networkType
  let provider := getAccountInput e.context "provider" emptyAccount
  let input_x := getAmountInput e.context "input_x" ⟨symbolTestnetSWP, 10⟩
  let input_y := getAmountInput e.context "input_y" ⟨symbolTestnetXYM, 10⟩
  let shares := createPoolSharesFormula input_x.amount input_y.amount
  let mosaicId : MosaicId := ⟨e.identifier.id, e.target.address⟩
  [ ⟨.accountMetadata deadline e.target.address "Pool_Id"
      e.identifier.id.length e.identifier.id net, e.target⟩,
    ⟨.mosaicDefinition deadline e.identifier.id mosaicId true true true 6 0 net,
      e.target⟩,
    ⟨.mosaicSupplyChange deadline mosaicId true shares net, e.target⟩,
    ⟨.mosaicMetadata deadline e.target.address "Pool_Id" mosaicId
      e.identifier.id.length e.identifier.id net, e.target⟩,
    ⟨.mosaicMetadata deadline e.target.address "X_Id" mosaicId
      input_x.identifier.id.length input_x.identifier.id net, e.target⟩,
    ⟨.mosaicMetadata deadline e.target.address "Y_Id" mosaicId
      input_y.identifier.id.length input_y.identifier.id net, e.target⟩,
    ⟨.accountMosaicRestriction deadline "AllowMosaic"
      [mosaicId, e.context.reader.feeMosaicId,
        input_x.identifier.toMosaicId, input_y.identifier.toMosaicId] [] net,
      e.target⟩,
    ⟨.transfer deadline provider.address
      [(e.identifier.toMosaicId, shares)] .empty net, e.target⟩,
    ⟨.transfer deadline e.target.address
      [(input_x.identifier.toMosaicId, (input_x.amount : ℝ)),
       (input_y.identifier.toMosaicId, (input_y.amount : ℝ))] .empty net,
      provider⟩,
    ⟨.transfer deadline e.target.address []
      (.plain (e.createPoolDescriptor ++ ":" ++ mosaicId.toHex
        ++ ":" ++ input_x.identifier.toMosaicId.toHex
        ++ ":" ++ input_y.identifier.toMosaicId.toHex)) net, provider⟩ ]

/-- The liquidity quantity computed by `AddLiquidity.transactions`:
`min(input_x.amount * supply / reserve_x, input_y.amount * supply / reserve_y)`. -/
def liquidityFormula (x y supply rx ry : ℚ) : ℚ :=
  min (x * supply / rx) (y * supply / ry)

/-- `this.mosaicInfo?.supply?.compact() ?? 0`. -/
def Executable.supplyLP (e : Executable) : ℚ :=
  match e.mosaicInfo with
  | some m => m.supply
  | none => 0

/-- `AddLiquidity.transactions` (src/commands/AddLiquidity.ts): the four
inner transactions in source order with their signers. -/
def Executable.addLiquidityTransactions (e : Executable) : List (InnerTx ℚ) :=
  let deadline := e.context.parameters.deadline
  let net := e.context.reader.networkType
  let provider := getAccountInput e.context "provider" emptyAccount
  let input_x := getAmountInput e.context "input_x" ⟨symbolTestnetSWP, 10⟩
  let input_y := getAmountInput e.context "input_y" ⟨symbolTestnetXYM, 10⟩
  let liquidity := liquidityFormula input_x.amount input_y.amount e.supplyLP
    (e.reserveOf input_x.identifier) (e.reserveOf input_y.identifier)
  [ ⟨.mosaicSupplyChange deadline e.mosaicInfoId true liquidity net, e.target⟩,
    ⟨.transfer deadline provider.address
      [(e.identifier.toMosaicId, liquidity)] .empty net, e.target⟩,
    ⟨.transfer deadline e.target.address
      [(input_x.identifier.toMosaicId, input_x.amount),
       (input_y.identifier.toMosaicId, input_y.amount)] .empty net, provider⟩,
    ⟨.transfer deadline e.target.address []
      (.plain (e.addLiquidityDescriptor ++ ":" ++ e.mosaicInfoId.toHex
        ++ ":" ++ input_x.identifier.toMosaicId.toHex
        ++ ":" ++ input_y.identifier.toMosaicId.toHex)) net, provider⟩ ]

/-- The output quantity computed by `Swap.transactions`:
`reserve_y - (reserve_x * reserve_y) / (reserve_x + input_x.amount)`. -/
def swapOutputFormula (rx ry dx : ℚ) : ℚ :=
  ry - rx * ry / (rx + dx)

/-- `Swap.transactions` (src/commands/Swap.ts): the three inner
transactions in source order with their signers.  The JS stringification
of the two numbers in the proof message is rendered by `toString` on `ℚ`. -/
def Executable.swapTransactions (e : Executable) : List (InnerTx ℚ) :=
  let deadline := e.context.parameters.deadline
  let net := e.context.reader.networkType
  let trader := getAccountInput e.context "trader" emptyAccount
  let input_x := e.swapInputX
  let output := getAssetIdInput e.context "output" ⟨"00000001", emptyAccount⟩
  let reserve_x := e.reserveOf input_x.identifier
  let reserve_y := e.reserveOf output
  let output_y := swapOutputFormula reserve_x reserve_y input_x.amount
  [ ⟨.transfer deadline e.target.address
      [(input_x.identifier.toMosaicId, input_x.amount)] .empty net, trader⟩,
    ⟨.transfer deadline trader.address
      [(output.toMosaicId, output_y)] .empty net, e.target⟩,
    ⟨.transfer deadline e.target.address []
      (.plain (e.swapDescriptor ++ ":" ++ e.mosaicInfoId.toHex
        ++ ":" ++ toString input_x.amount ++ ":" ++ toString output_y)) net,
      e.target⟩ ]

/-- `Publish.transactions` (unnamed/part_003): a single proof transfer to
the registry account carrying the descriptor, signed by the target. -/
def Executable.publishTransactions (e : Executable) : List (InnerTx ℚ) :=
  let registry := getAccountInput e.context "registry" emptyAccount
  [ ⟨.transfer e.context.parameters.deadline registry.address []
      (.plain e.publishDescriptor) e.context.reader.networkType, e.target⟩ ]

/-! ### Authorization / execution state machine -/

/-- An aggregate bonded transaction as `Executable.prepare` builds it:
`AggregateTransaction.createBonded(parameters.deadline, transactions,
networkType, [], parameters.maxFee)`, unsigned (empty cosignatures). -/
structure Contract (A : Type) where
  bonded : Bool
  deadline : Nat
  innerTransactions : List (InnerTx A)
  networkType : Nat
  cosignatures : List String
  maxFee : Option Nat
deriving Repr, DecidableEq

/-- One concrete pool operation, viewed through the interface the shared
state machine of `BaseCommand` / `Executable` consumes: its name, its
(already context-bound) `canExecute`, its transaction list, and the
parameters and network type read off its context. -/
structure PoolCommand (A : Type) where
  name : String
  canExecute : PublicAccount → Except Failure AllowanceResult
  transactions : List (InnerTx A)
  parameters : TransactionParameters
  networkType : Nat

/-- `BaseCommand.assertExecutionAllowance(actor, argv)`
(src/contracts/BaseCommand.ts): run `canExecute`; throw
`FailureOperationForbidden` when its status is false, else return true. -/
def assertExecutionAllowance {A : Type} (c : PoolCommand A)
    (actor : PublicAccount) : Except Failure Bool := do
  let authResult ← c.canExecute actor
  if authResult.status then pure true
  else .error (.operationForbidden ("Operation forbidden (" ++ c.name ++ ")"))

/-- `Executable.prepare()` (src/standards/Swapable/commands/Executable.ts):
throw `FailureEmptyContract` on an empty transaction list, otherwise wrap
the list in one unsigned aggregate bonded transaction using the deadline
and max fee from `Context.parameters`. -/
def PoolCommand.prepare {A : Type} (c : PoolCommand A) :
    Except Failure (Contract A) :=
  if c.transactions.isEmpty then
    .error (.emptyContract "No transactions result from the execution of this contract.")
  else
    .ok ⟨true, c.parameters.deadline, c.transactions, c.networkType, [],
      c.parameters.maxFee⟩

/-- `Executable.execute(actor, argv)`: assert the execution allowance,
then prepare the digital contract (the final `TransactionURI` wrapping is
a serialization step outside this embedding's boundary). -/
def PoolCommand.execute {A : Type} (c : PoolCommand A)
    (actor : PublicAccount) : Except Failure (Contract A) := do
  let _ ← assertExecutionAllowance c actor
  c.prepare

/-- The `CreatePool` operation of an `Executable` instance. -/
noncomputable def Executable.createPoolCommand (e : Executable) : PoolCommand ℝ :=
  ⟨"CreatePool", e.createPoolCanExecute, e.createPoolTransactions,
    e.context.parameters, e.context.reader.networkType⟩

/-- The `AddLiquidity` operation of an `Executable` instance. -/
def Executable.addLiquidityCommand (e : Executable) : PoolCommand ℚ :=
  ⟨"AddLiquidity", e.addLiquidityCanExecute, e.addLiquidityTransactions,
    e.context.parameters, e.context.reader.networkType⟩

/-- The `Swap` operation of an `Executable` instance. -/
def Executable.swapCommand (e : Executable) : PoolCommand ℚ :=
  ⟨"Swap", e.swapCanExecute, e.swapTransactions,
    e.context.parameters, e.context.reader.networkType⟩

/-- The `Publish` operation of an `Executable` instance. -/
def Executable.publishCommand (e : Executable) : PoolCommand ℚ :=
  ⟨"Publish", e.publishCanExecute, e.publishTransactions,
    e.context.parameters, e.context.reader.networkType⟩

/-! ### Registry scan (PoolService) -/

/-- Boolean "is the first list an initial segment of the second", the
semantics of the JS `String.prototype.startsWith` on code points. -/
def listIsInitial : List Char → List Char → Bool
  | [], _ => true
  | _ :: _, [] => false
  | a :: as, b :: bs => a == b && listIsInitial as bs

/-- JS `payload.startsWith(sig)` on our strings. -/
def strStarts (s sig : String) : Bool := listIsInitial sig.data s.data

/-- JS `payload.substr(n)`: drop the first `n` code points. -/
def strDropChars (s : String) (n : Nat) : String := String.mk (s.data.drop n)

/-- The `contractSignature` built in `PoolService.getPools`
(src/services/PoolService.ts): `Swapable(v${revision}):publish:`. -/
def contractSignature (revision : Nat) : String :=
  "Swapable(v" ++ toString revision ++ "):publish:"

/-- The transfer filter of `PoolService.getPools`:
`tx.message.payload.startsWith(contractSignature)`. -/
def poolScanAccepts (revision : Nat) (payload : String) : Bool :=
  strStarts payload (contractSignature revision)

/-- The identifier extraction of `PoolService.getPools`:
`payload.substr(contractSignature.length)`. -/
def poolScanIdentifier (revision : Nat) (payload : String) : String :=
  strDropChars payload (contractSignature revision).length

/-! ### Orchestrator synchronization (AutomatedPool, unnamed/part_002) -/

/-- The snapshot half of an `AutomatedPool` instance that `synchronize()`
refreshes. -/
structure AutomatedPoolState where
  mosaicInfo : Option MosaicInfo
  reserveInfo : Option AccountInfo
deriving Repr, DecidableEq

/-- Outcome of one asynchronous ledger read inside `synchronize()`:
either a value, or an error emitted by the observable and intercepted by
`catchError(e => of(undefined))`, or an exception thrown outside the
observable pipeline and swallowed by the surrounding `try {} catch {}`. -/
inductive ReadOutcome (α : Type) where
  | ok (value : α)
  | caughtError
  | thrownError
deriving Repr, DecidableEq

/-- Effect of one `synchronize()` read on the held snapshot field: a value
replaces it; an observable error resolves the awaited promise to
`undefined`, which is then assigned; a thrown exception skips the
assignment and keeps the previous value. -/
def syncField {α : Type} (previous : Option α) : ReadOutcome α → Option α
  | .ok v => some v
  | .caughtError => none
  | .thrownError => previous

/-- `AutomatedPool.synchronize()` (unnamed/part_002): refresh the mosaic
and reserve snapshot fields from the two reads and return `true`
unconditionally. -/
def AutomatedPool.synchronize (st : AutomatedPoolState)
    (mosaicRead : ReadOutcome MosaicInfo)
    (reserveRead : ReadOutcome AccountInfo) : AutomatedPoolState × Bool :=
  (⟨syncField st.mosaicInfo mosaicRead, syncField st.reserveInfo reserveRead⟩,
    true)

/-! ### Decidability and concrete fixtures -/

instance {ε α : Type} [DecidableEq ε] [DecidableEq α] : DecidableEq (Except ε α)
  | .error a, .error b =>
    if h : a = b then .isTrue (congrArg _ h)
    else .isFalse (fun hc => h (Except.error.inj hc))
  | .error _, .ok _ => .isFalse (fun hc => Except.noConfusion hc)
  | .ok _, .error _ => .isFalse (fun hc => Except.noConfusion hc)
  | .ok a, .ok b =>
    if h : a = b then .isTrue (congrArg _ h)
    else .isFalse (fun hc => h (Except.ok.inj hc))

/-- A concrete network reader used by the closed witness statements. -/
def sampleReader : Reader := ⟨152, "G", ⟨"FEE0", "FEEOWNER"⟩⟩

/-- Concrete transaction parameters used by the closed witness statements. -/
def sampleParams : TransactionParameters := ⟨1573430400, 1000, some 750000⟩

/-- A concrete, fully-argued `Swap` context. -/
def sampleSwapContext : Context Value :=
  ⟨1, ⟨"ACTOR"⟩, sampleReader, sampleParams,
   some [⟨"trader", .acct ⟨"TRADER"⟩⟩,
         ⟨"input_x", .amount ⟨⟨"AAAA", ⟨"POOL"⟩⟩, 1⟩⟩,
         ⟨"output", .assetId ⟨"BBBB", ⟨"POOL"⟩⟩⟩]⟩

/-- A concrete `Swap` command instance over reserves of 10 and 10. -/
def sampleSwap : Executable :=
  ⟨sampleSwapContext, ⟨"DEAD", ⟨"POOL"⟩⟩,
   some ⟨⟨"DEAD", "POOL"⟩, 10000000⟩,
   some ⟨[(⟨"AAAA", "POOL"⟩, 10), (⟨"BBBB", "POOL"⟩, 10)]⟩⟩

/-- A concrete, fully-argued `AddLiquidity` context (5 of each asset). -/
def sampleAddContext : Context Value :=
  ⟨1, ⟨"ACTOR"⟩, sampleReader, sampleParams,
   some [⟨"provider", .acct ⟨"PROVIDER"⟩⟩,
         ⟨"input_x", .amount ⟨⟨"AAAA", ⟨"POOL"⟩⟩, 5⟩⟩,
         ⟨"input_y", .amount ⟨⟨"BBBB", ⟨"POOL"⟩⟩, 5⟩⟩]⟩

/-- A concrete `AddLiquidity` command instance with supply 10_000_000 and
reserves of 10 and 10. -/
def sampleAdd : Executable :=
  ⟨sampleAddContext, ⟨"DEAD", ⟨"POOL"⟩⟩,
   some ⟨⟨"DEAD", "POOL"⟩, 10000000⟩,
   some ⟨[(⟨"AAAA", "POOL"⟩, 10), (⟨"BBBB", "POOL"⟩, 10)]⟩⟩

/-- The same `AddLiquidity` instance before any synchronization: both
snapshot halves `undefined`. -/
def sampleAddNoSnapshot : Executable :=
  ⟨sampleAddContext, ⟨"DEAD", ⟨"POOL"⟩⟩, none, none⟩

/-- A concrete `Publish` command instance. -/
def samplePublish : Executable :=
  ⟨⟨1, ⟨"ACTOR"⟩, sampleReader, sampleParams,
    some [⟨"registry", .acct ⟨"REGISTRY"⟩⟩]⟩,
   ⟨"DEAD", ⟨"POOL"⟩⟩, none, none⟩

/-- A `Swap` context that lacks the mandatory `input_x` argument. -/
def sampleMissingContext : Context Value :=
  ⟨1, ⟨"ACTOR"⟩, sampleReader, sampleParams,
   some [⟨"trader", .acct ⟨"TRADER"⟩⟩,
         ⟨"output", .assetId ⟨"BBBB", ⟨"POOL"⟩⟩⟩]⟩

/-- A `Swap` command instance with a missing mandatory argument and no
snapshot (its arithmetic would read zero reserves). -/
def sampleMissing : Executable :=
  ⟨sampleMissingContext, ⟨"DEAD", ⟨"POOL"⟩⟩, none, none⟩

/-- An empty-transaction-list command used to witness the empty-contract
branch of `prepare`. -/
def sampleEmptyCommand : PoolCommand ℚ :=
  ⟨"Fake", fun _ => .ok (AllowanceResult.mk1 true), [], sampleParams, 152⟩

/-- A stub command whose allowance is always denied, used by the C4
witness. -/
def sampleForbiddenCommand : PoolCommand ℚ :=
  ⟨"Fake2", fun _ => .ok (AllowanceResult.mk1 false), [], sampleParams, 152⟩

/-- A concrete argument list used by the `Context` witness. -/
def sampleOptionsContext : Context Nat :=
  ⟨0, ⟨"A"⟩, sampleReader, sampleParams, some [⟨"k", 1⟩, ⟨"j", 2⟩]⟩

/-! ### Helper lemmas -/

theorem find?_append_of_found {α : Type} {l₁ : List α} (l₂ : List α)
    {p : α → Bool} {w : α} (h : l₁.find? p = some w) :
    (l₁ ++ l₂).find? p = some w := by
  induction l₁ with
  | nil => simp [List.find?] at h
  | cons a as ih =>
    rw [List.cons_append]
    cases hpa : p a with
    | true =>
      rw [List.find?_cons_of_pos _ hpa] at h ⊢
      exact h
    | false =>
      rw [List.find?_cons_of_neg _ (by simp [hpa])] at h ⊢
      exact ih h

theorem Context.getInput_eq_find {α : Type} (ctx : Context α) (name : String)
    (d : α) :
    ctx.getInput name d =
      (match (ctx.argv.getD []).find? (fun opt => opt.name == name) with
        | some it => it.value
        | none => d) := by
  cases harg : ctx.argv with
  | none => simp [Context.getInput, harg]
  | some l =>
    cases l with
    | nil => simp [Context.getInput, harg]
    | cons a as => simp [Context.getInput, harg]

theorem Context.getInputOpt_eq_find {α : Type} (ctx : Context α)
    (name : String) :
    ctx.getInputOpt name =
      ((ctx.argv.getD []).find? (fun opt => opt.name == name)).map
        (fun it => it.value) := by
  cases harg : ctx.argv with
  | none => simp [Context.getInputOpt, harg]
  | some l =>
    cases l with
    | nil => simp [Context.getInputOpt, harg]
    | cons a as => simp [Context.getInputOpt, harg]

/-- `assertHasMandatoryArguments` either succeeds with `true` or fails
with a missing-argument failure; it inspects nothing else. -/
theorem assert_ok_or_missing (ctx : Context Value) (fields : List String) :
    assertHasMandatoryArguments ctx fields = .ok true
    ∨ ∃ f, f ∈ fields ∧ ctx.getInputOpt f = none
        ∧ assertHasMandatoryArguments ctx fields =
            .error (.missingArgument ("Missing argument \"" ++ f ++ "\"")) := by
  induction fields with
  | nil => exact Or.inl rfl
  | cons f rest ih =>
    cases hf : ctx.getInputOpt f with
    | none =>
      refine Or.inr ⟨f, List.mem_cons_self _ _, hf, ?_⟩
      simp [assertHasMandatoryArguments, hf]
    | some v =>
      have hstep : assertHasMandatoryArguments ctx (f :: rest) =
          assertHasMandatoryArguments ctx rest := by
        simp [assertHasMandatoryArguments, hf]
      rcases ih with h | ⟨g, hg, hgnone, herr⟩
      · exact Or.inl (hstep.trans h)
      · exact Or.inr ⟨g, List.mem_cons_of_mem _ hg, hgnone, hstep.trans herr⟩

/-- When some declared field is absent, the assertion fails with the
missing-argument failure (of the first absent field). -/
theorem assert_errors_of_absent (ctx : Context Value) (fields : List String)
    (h : ∃ f, f ∈ fields ∧ ctx.getInputOpt f = none) :
    ∃ m, assertHasMandatoryArguments ctx fields =
      .error (.missingArgument m) := by
  rcases assert_ok_or_missing ctx fields with hok | ⟨g, _, _, herr⟩
  · exfalso
    obtain ⟨f, hfmem, hfnone⟩ := h
    induction fields with
    | nil => exact absurd hfmem (List.not_mem_nil f)
    | cons a rest ih =>
      cases hfa : ctx.getInputOpt a with
      | none => simp [assertHasMandatoryArguments, hfa] at hok
      | some v =>
        have hstep : assertHasMandatoryArguments ctx (a :: rest) =
            assertHasMandatoryArguments ctx rest := by
          simp [assertHasMandatoryArguments, hfa]
        rcases List.mem_cons.mp hfmem with rfl | hmem
        · exact absurd hfnone (by simp [hfa])
        · exact ih (hstep.symm.trans hok) hmem
  · exact ⟨_, herr⟩

theorem except_bind_ok {ε α β : Type} (a : α) (f : α → Except ε β) :
    (Except.ok a >>= f) = f a := rfl

theorem except_bind_error {ε α β : Type} (e : ε) (f : α → Except ε β) :
    ((Except.error e : Except ε α) >>= f) = Except.error e := rfl

theorem except_pure {ε α : Type} (a : α) :
    (pure a : Except ε α) = Except.ok a := rfl

/-- A command whose `canExecute` fails propagates that failure through
`execute` unchanged. -/
theorem execute_of_canExecute_error {A : Type} (c : PoolCommand A)
    (actor : PublicAccount) (fl : Failure)
    (h : c.canExecute actor = .error fl) : c.execute actor = .error fl := by
  simp [PoolCommand.execute, assertExecutionAllowance, h, except_bind_error]

/-! ### Claim theorems -/

/-- C10: for every `Context`, `getInput(name, default)` returns the value
of the first option whose name equals `name` and the default (never
throwing) when none matches; `setInput(name, value)` always appends at the
end of the list, so re-setting an already-present name leaves every
subsequent `getInput(name, _)` unchanged — the first occurrence still
wins. -/
theorem context_getInput_setInput_spec {α : Type} :
    (∀ (ctx : Context α) (name : String) (d : α),
      ctx.getInput name d =
        (match (ctx.argv.getD []).find? (fun opt => opt.name == name) with
          | some it => it.value
          | none => d))
    ∧ (∀ (ctx : Context α) (name : String) (v : α),
        (ctx.setInput name v).argv = some (ctx.argv.getD [] ++ [⟨name, v⟩]))
    ∧ (∀ (ctx : Context α) (name : String) (w : CommandOption α) (v d : α),
        (ctx.argv.getD []).find? (fun opt => opt.name == name) = some w →
        (ctx.setInput name v).getInput name d = ctx.getInput name d) := by
  refine ⟨Context.getInput_eq_find, fun ctx name v => rfl, ?_⟩
  intro ctx name w v d hfound
  rw [Context.getInput_eq_find, Context.getInput_eq_find]
  have h2 : ((ctx.setInput name v).argv.getD []) =
      ctx.argv.getD [] ++ [⟨name, v⟩] := by
    simp [Context.setInput]
  rw [h2, find?_append_of_found _ hfound, hfound]

/-- Witness for C10 at a concrete context: `"k"` is present with value 1;
re-setting it to 99 leaves `getInput "k"` unchanged. -/
theorem context_getInput_setInput_spec_witness :
    (sampleOptionsContext.setInput "k" 99).getInput "k" 0 =
      sampleOptionsContext.getInput "k" 0
    ∧ sampleOptionsContext.getInput "k" 0 = 1 :=
  ⟨(context_getInput_setInput_spec (α := Nat)).2.2
      sampleOptionsContext "k" ⟨"k", 1⟩ 99 0 (by decide),
    by decide⟩

/-- C6: `prepare()` raises `EmptyContract` iff the operation's transaction
list is empty (never yielding a degenerate empty batch), and otherwise
returns exactly one aggregate bonded transaction wrapping precisely that
list, with an empty cosignature list and the deadline and max fee from
`Context.parameters` (as the four command instances bind `parameters`). -/
theorem prepare_empty_contract_spec :
    (∀ (A : Type) (c : PoolCommand A),
      ((∃ m, c.prepare = .error (.emptyContract m)) ↔ c.transactions = [])
      ∧ (c.transactions ≠ [] →
          c.prepare = .ok ⟨true, c.parameters.deadline, c.transactions,
            c.networkType, [], c.parameters.maxFee⟩))
    ∧ (∀ e : Executable,
        e.swapCommand.parameters = e.context.parameters
        ∧ e.addLiquidityCommand.parameters = e.context.parameters
        ∧ e.createPoolCommand.parameters = e.context.parameters
        ∧ e.publishCommand.parameters = e.context.parameters) := by
  refine ⟨fun A c => ?_, fun e => ⟨rfl, rfl, rfl, rfl⟩⟩
  by_cases h : c.transactions = []
  · constructor
    · constructor
      · intro _
        exact h
      · intro _
        refine ⟨"No transactions result from the execution of this contract.", ?_⟩
        simp [PoolCommand.prepare, h]
    · intro hne
      exact absurd h hne
  · constructor
    · constructor
      · intro ⟨m, hm⟩
        rw [PoolCommand.prepare, if_neg (by simp [h])] at hm
        exact absurd hm (by simp)
      · intro hnil
        exact absurd hnil h
    · intro _
      rw [PoolCommand.prepare, if_neg (by simp [h])]

/-- Witness for C6: the stub command with no transactions raises
`EmptyContract`; a concrete `Publish` instance yields the unsigned bonded
aggregate with the context's deadline and max fee. -/
theorem prepare_empty_contract_spec_witness :
    (∃ m, sampleEmptyCommand.prepare = .error (.emptyContract m))
    ∧ samplePublish.publishCommand.prepare =
        .ok ⟨true, 1000, samplePublish.publishTransactions, 152, [],
          some 750000⟩ :=
  ⟨(prepare_empty_contract_spec.1 ℚ sampleEmptyCommand).1.mpr rfl,
    (prepare_empty_contract_spec.1 ℚ samplePublish.publishCommand).2
      (by decide)⟩

/-- C4: for every operation and every call whose mandatory arguments are
present (`canExecute` returned a result rather than failing), `execute`
raises `OperationForbidden` exactly when `canExecute` reported
`status = false`, producing no batch in that case; `canExecute` itself
never raises `OperationForbidden` for any of the commands; in particular,
with the ownership allowance of `Publish`, every actor whose address
differs from the pool's target address is refused by `execute` while the
target actor is allowed. -/
theorem execute_forbidden_spec :
    (∀ (A : Type) (c : PoolCommand A) (actor : PublicAccount)
        (r : AllowanceResult), c.canExecute actor = .ok r →
      ((r.status = false →
          c.execute actor = .error (.operationForbidden
            ("Operation forbidden (" ++ c.name ++ ")")))
        ∧ ((∃ m, c.execute actor = .error (.operationForbidden m)) ↔
            r.status = false)))
    ∧ (∀ (e : Executable) (actor : PublicAccount) (m : String),
        e.swapCanExecute actor ≠ .error (.operationForbidden m)
        ∧ e.addLiquidityCanExecute actor ≠ .error (.operationForbidden m)
        ∧ e.createPoolCanExecute actor ≠ .error (.operationForbidden m)
        ∧ e.publishCanExecute actor ≠ .error (.operationForbidden m)
        ∧ ∀ args, e.defaultCanExecute args actor ≠
            .error (.operationForbidden m))
    ∧ (∀ (e : Executable) (actor : PublicAccount),
        (∃ v, e.context.getInputOpt "registry" = some v) →
        actor.address ≠ e.target.address →
        e.publishCommand.execute actor =
          .error (.operationForbidden "Operation forbidden (Publish)"))
    ∧ (∀ e : Executable,
        (∃ v, e.context.getInputOpt "registry" = some v) →
        e.publishCanExecute e.target = .ok (AllowanceResult.mk1 true)) := by
  have hgen : ∀ (A : Type) (c : PoolCommand A) (actor : PublicAccount)
      (r : AllowanceResult), c.canExecute actor = .ok r →
      ((r.status = false →
          c.execute actor = .error (.operationForbidden
            ("Operation forbidden (" ++ c.name ++ ")")))
        ∧ ((∃ m, c.execute actor = .error (.operationForbidden m)) ↔
            r.status = false)) := by
    intro A c actor r h
    have ha : assertExecutionAllowance c actor =
        if r.status then .ok true
        else .error (.operationForbidden ("Operation forbidden (" ++ c.name ++ ")")) := by
      simp [assertExecutionAllowance, h, except_bind_ok]
      cases r.status <;> simp [except_pure]
    constructor
    · intro hst
      simp [PoolCommand.execute, ha, hst, except_bind_error]
    · constructor
      · intro ⟨m, hm⟩
        by_contra hst
        replace hst : r.status = true := by
          cases hr : r.status
          · exact absurd hr hst
          · rfl
        rw [PoolCommand.execute, ha, hst] at hm
        rw [if_pos rfl, except_bind_ok] at hm
        by_cases ht : c.transactions = []
        · rw [PoolCommand.prepare, if_pos (by simp [ht])] at hm
          exact Failure.noConfusion (Except.error.inj hm)
        · rw [PoolCommand.prepare, if_neg (by simp [ht])] at hm
          exact Except.noConfusion hm
      · intro hst
        refine ⟨"Operation forbidden (" ++ c.name ++ ")", ?_⟩
        simp [PoolCommand.execute, ha, hst, except_bind_error]
  have hnever : ∀ (ctx : Context Value) (args : List String)
      (x : AllowanceResult) (m : String),
      (do let _ ← assertHasMandatoryArguments ctx args
          pure x : Except Failure AllowanceResult) ≠
        .error (.operationForbidden m) := by
    intro ctx args x m
    rcases assert_ok_or_missing ctx args with hok | ⟨f, _, _, herr⟩
    · simp [hok, except_bind_ok, except_pure]
    · simp [herr, except_bind_error]
  refine ⟨hgen, fun e actor m => ?_, ?_, ?_⟩
  · refine ⟨?_, ?_, ?_, ?_, fun args => ?_⟩
    · rcases assert_ok_or_missing e.context swapArguments with hok | ⟨f, _, _, herr⟩
      · simp [Executable.swapCanExecute, hok, except_bind_ok, except_pure]
      · simp [Executable.swapCanExecute, herr, except_bind_error]
    · rcases assert_ok_or_missing e.context addLiquidityArguments with hok | ⟨f, _, _, herr⟩
      · simp [Executable.addLiquidityCanExecute, hok, except_bind_ok, except_pure]
      · simp [Executable.addLiquidityCanExecute, herr, except_bind_error]
    · rcases assert_ok_or_missing e.context createPoolArguments with hok | ⟨f, _, _, herr⟩
      · simp [Executable.createPoolCanExecute, hok, except_bind_ok, except_pure]
      · simp [Executable.createPoolCanExecute, herr, except_bind_error]
    · rcases assert_ok_or_missing e.context publishArguments with hok | ⟨f, _, _, herr⟩
      · simp [Executable.publishCanExecute, hok, except_bind_ok, except_pure]
      · simp [Executable.publishCanExecute, herr, except_bind_error]
    · rcases assert_ok_or_missing e.context args with hok | ⟨f, _, _, herr⟩
      · simp [Executable.defaultCanExecute, hok, except_bind_ok, except_pure]
      · simp [Executable.defaultCanExecute, herr, except_bind_error]
  · intro e actor hreg hne
    obtain ⟨v, hv⟩ := hreg
    have hassert : assertHasMandatoryArguments e.context publishArguments = .ok true := by
      simp [assertHasMandatoryArguments, publishArguments, hv]
    have hce : e.publishCanExecute actor = .ok (AllowanceResult.mk1 false) := by
      simp [Executable.publishCanExecute, hassert, except_bind_ok, except_pure,
        AllowanceResult.mk1]
      exact hne
    have := (hgen ℚ e.publishCommand actor (AllowanceResult.mk1 false) hce).1 rfl
    exact this
  · intro e hreg
    obtain ⟨v, hv⟩ := hreg
    have hassert : assertHasMandatoryArguments e.context publishArguments = .ok true := by
      simp [assertHasMandatoryArguments, publishArguments, hv]
    simp [Executable.publishCanExecute, hassert, except_bind_ok, except_pure,
      AllowanceResult.mk1]

/-- Witness for C4: a concrete always-denied command is refused by
`execute`; the concrete `Publish` instance refuses a stranger and allows
its target. -/
theorem execute_forbidden_spec_witness :
    sampleForbiddenCommand.execute ⟨"EVE"⟩ =
      .error (.operationForbidden "Operation forbidden (Fake2)")
    ∧ samplePublish.publishCommand.execute ⟨"EVE"⟩ =
        .error (.operationForbidden "Operation forbidden (Publish)")
    ∧ samplePublish.publishCanExecute ⟨"POOL"⟩ = .ok (AllowanceResult.mk1 true) :=
  ⟨(execute_forbidden_spec.1 ℚ sampleForbiddenCommand ⟨"EVE"⟩
      (AllowanceResult.mk1 false) rfl).1 rfl,
    execute_forbidden_spec.2.2.1 samplePublish ⟨"EVE"⟩
      ⟨.acct ⟨"REGISTRY"⟩, by decide⟩ (by decide),
    execute_forbidden_spec.2.2.2 samplePublish ⟨.acct ⟨"REGISTRY"⟩, by decide⟩⟩

/-- C5: for every operation, whenever some declared mandatory argument is
absent from the context, `canExecute` (and therefore `execute`) fails with
`MissingArgument` — for every snapshot state and every actor, hence before
any allowance predicate is evaluated and before any pool arithmetic is
computed. -/
theorem missing_argument_spec :
    ∀ (e : Executable) (actor : PublicAccount),
      ((∃ f, f ∈ swapArguments ∧ e.context.getInputOpt f = none) →
        ∃ m, e.swapCanExecute actor = .error (.missingArgument m)
          ∧ e.swapCommand.execute actor = .error (.missingArgument m))
      ∧ ((∃ f, f ∈ addLiquidityArguments ∧ e.context.getInputOpt f = none) →
        ∃ m, e.addLiquidityCanExecute actor = .error (.missingArgument m)
          ∧ e.addLiquidityCommand.execute actor = .error (.missingArgument m))
      ∧ ((∃ f, f ∈ createPoolArguments ∧ e.context.getInputOpt f = none) →
        ∃ m, e.createPoolCanExecute actor = .error (.missingArgument m))
      ∧ ((∃ f, f ∈ publishArguments ∧ e.context.getInputOpt f = none) →
        ∃ m, e.publishCanExecute actor = .error (.missingArgument m)
          ∧ e.publishCommand.execute actor = .error (.missingArgument m))
      ∧ (∀ args, (∃ f, f ∈ args ∧ e.context.getInputOpt f = none) →
        ∃ m, e.defaultCanExecute args actor = .error (.missingArgument m)) := by
  intro e actor
  refine ⟨fun h => ?_, fun h => ?_, fun h => ?_, fun h => ?_, fun args h => ?_⟩
  · obtain ⟨m, herr⟩ := assert_errors_of_absent e.context swapArguments h
    have hce : e.swapCanExecute actor = .error (.missingArgument m) := by
      simp [Executable.swapCanExecute, herr, except_bind_error]
    exact ⟨m, hce, execute_of_canExecute_error _ _ _ hce⟩
  · obtain ⟨m, herr⟩ := assert_errors_of_absent e.context addLiquidityArguments h
    have hce : e.addLiquidityCanExecute actor = .error (.missingArgument m) := by
      simp [Executable.addLiquidityCanExecute, herr, except_bind_error]
    exact ⟨m, hce, execute_of_canExecute_error _ _ _ hce⟩
  · obtain ⟨m, herr⟩ := assert_errors_of_absent e.context createPoolArguments h
    refine ⟨m, ?_⟩
    simp [Executable.createPoolCanExecute, herr, except_bind_error]
  · obtain ⟨m, herr⟩ := assert_errors_of_absent e.context publishArguments h
    have hce : e.publishCanExecute actor = .error (.missingArgument m) := by
      simp [Executable.publishCanExecute, herr, except_bind_error]
    exact ⟨m, hce, execute_of_canExecute_error _ _ _ hce⟩
  · obtain ⟨m, herr⟩ := assert_errors_of_absent e.context args h
    refine ⟨m, ?_⟩
    simp [Executable.defaultCanExecute, herr, except_bind_error]

/-- Witness for C5: a `Swap` instance missing its `input_x` argument (with
no snapshot, zero reserves and a forbidden actor) still fails with
`MissingArgument`. -/
theorem missing_argument_spec_witness :
    ∃ m, sampleMissing.swapCanExecute ⟨"EVE"⟩ = .error (.missingArgument m)
      ∧ sampleMissing.swapCommand.execute ⟨"EVE"⟩ =
          .error (.missingArgument m) :=
  (missing_argument_spec sampleMissing ⟨"EVE"⟩).1
    ⟨"input_x", by decide, by decide⟩

/-- C1: with all mandatory arguments present, `Swap.canExecute` reports
`status = true` iff (given a present snapshot) the input amount is
positive and strictly below the input-side reserve; the assembled batch's
second transfer sends the trader exactly
`output_y = reserve_y - (reserve_x * reserve_y) / (reserve_x + input_x.amount)`;
for every valid input this output lies strictly between 0 and
`reserve_y`; and the spec's example gives `10 - 100/11`. -/
theorem swap_spec :
    (∀ (e : Executable) (actor : PublicAccount),
      assertHasMandatoryArguments e.context swapArguments = .ok true →
      e.mosaicInfo.isSome = true →
      e.reserveInfo.isSome = true →
      (∃ r, e.swapCanExecute actor = .ok r ∧
        (r.status = true ↔ (0 < e.swapInputX.amount ∧
          e.swapInputX.amount < e.reserveOf e.swapInputX.identifier)))
      ∧ e.swapTransactions[1]? = some
          ⟨.transfer e.context.parameters.deadline
            (getAccountInput e.context "trader" emptyAccount).address
            [((getAssetIdInput e.context "output" ⟨"00000001", emptyAccount⟩).toMosaicId,
              swapOutputFormula (e.reserveOf e.swapInputX.identifier)
                (e.reserveOf (getAssetIdInput e.context "output" ⟨"00000001", emptyAccount⟩))
                e.swapInputX.amount)]
            .empty e.context.reader.networkType, e.target⟩)
    ∧ (∀ rx ry dx : ℚ, 0 < rx → 0 < ry → 0 < dx → dx < rx →
        swapOutputFormula rx ry dx = ry - rx * ry / (rx + dx)
        ∧ 0 < swapOutputFormula rx ry dx ∧ swapOutputFormula rx ry dx < ry)
    ∧ swapOutputFormula 10 10 1 = 10 - 100 / 11 := by
  refine ⟨fun e actor hassert hm hr => ⟨?_, rfl⟩, fun rx ry dx h1 h2 h3 h4 => ?_, ?_⟩
  · refine ⟨AllowanceResult.mk1 (e.reserveInfo.isSome && e.mosaicInfo.isSome
        && decide (e.swapInputX.amount > 0)
        && decide (e.reserveOf e.swapInputX.identifier > e.swapInputX.amount)),
      ?_, ?_⟩
    · simp [Executable.swapCanExecute, hassert, except_bind_ok, except_pure]
    · simp only [AllowanceResult.mk1, hm, hr, Bool.true_and, Bool.and_eq_true,
        decide_eq_true_eq, gt_iff_lt]
  · have hd : 0 < rx + dx := by linarith
    refine ⟨rfl, ?_, ?_⟩
    · rw [swapOutputFormula, sub_pos, div_lt_iff₀ hd]
      nlinarith
    · rw [swapOutputFormula]
      have hq : 0 < rx * ry / (rx + dx) := by positivity
      linarith
  · norm_num [swapOutputFormula]

/-- Witness for C1: the concrete `Swap` instance (reserves 10/10, input 1)
is allowed, and the example output lies strictly between 0 and the
reserve. -/
theorem swap_spec_witness :
    (∃ r, sampleSwap.swapCanExecute ⟨"X"⟩ = .ok r ∧ r.status = true)
    ∧ 0 < swapOutputFormula 10 10 1 ∧ swapOutputFormula 10 10 1 < 10 := by
  obtain ⟨⟨r, hrr, hiff⟩, -⟩ :=
    swap_spec.1 sampleSwap ⟨"X"⟩ (by decide) (by decide) (by decide)
  have h2 := swap_spec.2.1 10 10 1 (by decide) (by decide) (by decide) (by decide)
  exact ⟨⟨r, hrr, hiff.mpr (by decide)⟩, h2.2.1, h2.2.2⟩

/-- C2: `CreatePool` creates (supply-change, third transaction) and
transfers to the provider (eighth transaction) the same share quantity
`1_000_000 * sqrt(input_x.amount * input_y.amount)`; inputs of 10 and 10
yield exactly 10_000_000 shares. -/
theorem createPool_shares_spec :
    ∀ e : Executable,
      e.createPoolTransactions[2]? = some
        ⟨.mosaicSupplyChange e.context.parameters.deadline
          ⟨e.identifier.id, e.target.address⟩ true
          (createPoolSharesFormula
            (getAmountInput e.context "input_x" ⟨symbolTestnetSWP, 10⟩).amount
            (getAmountInput e.context "input_y" ⟨symbolTestnetXYM, 10⟩).amount)
          e.context.reader.networkType, e.target⟩
      ∧ e.createPoolTransactions[7]? = some
        ⟨.transfer e.context.parameters.deadline
          (getAccountInput e.context "provider" emptyAccount).address
          [(e.identifier.toMosaicId, createPoolSharesFormula
            (getAmountInput e.context "input_x" ⟨symbolTestnetSWP, 10⟩).amount
            (getAmountInput e.context "input_y" ⟨symbolTestnetXYM, 10⟩).amount)]
          .empty e.context.reader.networkType, e.target⟩
      ∧ createPoolSharesFormula 10 10 = 10000000 := by
  intro e
  refine ⟨rfl, rfl, ?_⟩
  have h100 : ((10 : ℚ) : ℝ) * ((10 : ℚ) : ℝ) = (10 : ℝ) ^ 2 := by norm_num
  rw [createPoolSharesFormula, h100, Real.sqrt_sq (by norm_num : (0:ℝ) ≤ 10)]
  norm_num

/-- C3: with all mandatory arguments present, `AddLiquidity.canExecute`
reports `status = true` iff the snapshot is present (`mosaicInfo` and
`reserveInfo` both set); the supply increase and the shares transferred to
the provider both equal
`min(input_x.amount * supply / reserve_x, input_y.amount * supply / reserve_y)`;
the spec's example gives 5_000_000. -/
theorem addLiquidity_spec :
    (∀ (e : Executable) (actor : PublicAccount),
      assertHasMandatoryArguments e.context addLiquidityArguments = .ok true →
      ∃ r, e.addLiquidityCanExecute actor = .ok r ∧
        (r.status = true ↔
          (e.mosaicInfo.isSome = true ∧ e.reserveInfo.isSome = true)))
    ∧ (∀ e : Executable,
        e.addLiquidityTransactions[0]? = some
          ⟨.mosaicSupplyChange e.context.parameters.deadline e.mosaicInfoId true
            (liquidityFormula
              (getAmountInput e.context "input_x" ⟨symbolTestnetSWP, 10⟩).amount
              (getAmountInput e.context "input_y" ⟨symbolTestnetXYM, 10⟩).amount
              e.supplyLP
              (e.reserveOf (getAmountInput e.context "input_x" ⟨symbolTestnetSWP, 10⟩).identifier)
              (e.reserveOf (getAmountInput e.context "input_y" ⟨symbolTestnetXYM, 10⟩).identifier))
            e.context.reader.networkType, e.target⟩
        ∧ e.addLiquidityTransactions[1]? = some
          ⟨.transfer e.context.parameters.deadline
            (getAccountInput e.context "provider" emptyAccount).address
            [(e.identifier.toMosaicId, liquidityFormula
              (getAmountInput e.context "input_x" ⟨symbolTestnetSWP, 10⟩).amount
              (getAmountInput e.context "input_y" ⟨symbolTestnetXYM, 10⟩).amount
              e.supplyLP
              (e.reserveOf (getAmountInput e.context "input_x" ⟨symbolTestnetSWP, 10⟩).identifier)
              (e.reserveOf (getAmountInput e.context "input_y" ⟨symbolTestnetXYM, 10⟩).identifier))]
            .empty e.context.reader.networkType, e.target⟩)
    ∧ liquidityFormula 5 5 10000000 10 10 = 5000000 := by
  refine ⟨fun e actor hassert => ?_, fun e => ⟨rfl, rfl⟩, by norm_num [liquidityFormula, min_self]⟩
  refine ⟨AllowanceResult.mk1 (e.reserveInfo.isSome && e.mosaicInfo.isSome), ?_, ?_⟩
  · simp [Executable.addLiquidityCanExecute, hassert, except_bind_ok, except_pure]
  · simp only [AllowanceResult.mk1, Bool.and_eq_true]
    constructor
    · intro ⟨ha, hb⟩
      exact ⟨hb, ha⟩
    · intro ⟨ha, hb⟩
      exact ⟨hb, ha⟩

/-- Witness for C3: the concrete `AddLiquidity` instance (snapshot
present) is allowed. -/
theorem addLiquidity_spec_witness :
    ∃ r, sampleAdd.addLiquidityCanExecute ⟨"X"⟩ = .ok r ∧ r.status = true := by
  obtain ⟨r, hrr, hiff⟩ := addLiquidity_spec.1 sampleAdd ⟨"X"⟩ (by decide)
  exact ⟨r, hrr, hiff.mpr (by decide)⟩

theorem byteToHex_length (b : Nat) : (byteToHex b).length = 2 := rfl

theorem foldlHex_length (l : List Nat) (s : String) :
    (l.foldl (fun acc b => acc ++ byteToHex b) s).length =
      s.length + 2 * l.length := by
  induction l generalizing s with
  | nil => simp
  | cons a as ih =>
    rw [List.foldl_cons, ih]
    rw [String.length_append, byteToHex_length, List.length_cons]
    omega

theorem sha3_512_length (msg : List Nat) : (sha3_512 msg).length = 64 := by
  simp [sha3_512]

theorem sha3_512_bytes_lt (msg : List Nat) : ∀ b ∈ sha3_512 msg, b < 256 := by
  intro b hb
  simp only [sha3_512, List.mem_map] at hb
  obtain ⟨i, -, rfl⟩ := hb
  exact Nat.mod_lt _ (by norm_num)

/-- C7: `AssetIdentifier.createForSource` is a pure function of its
arguments (two derivations agree); it equals the hex encoding of the first
4 bytes of the sha3-512 digest of the UTF-8 bytes of
`target-address || '-' || source || '-' || name`; the digest is 64 bytes
of values below 256, and the resulting id is exactly 8 hex characters
(4 bytes); the construction is total, so it never fails. -/
theorem createForSource_spec :
    ∀ (name : String) (target : PublicAccount) (source : AssetSource),
      AssetIdentifier.createForSource name target source =
        AssetIdentifier.createForSource name target source
      ∧ AssetIdentifier.createForSource name target source =
          ⟨((sha3_512 (utf8Encode (target.address ++ "-" ++ source.source
              ++ "-" ++ name))).take 4).foldl
            (fun acc b => acc ++ byteToHex b) "", target⟩
      ∧ (sha3_512 (utf8Encode (target.address ++ "-" ++ source.source
          ++ "-" ++ name))).length = 64
      ∧ (∀ b ∈ sha3_512 (utf8Encode (target.address ++ "-" ++ source.source
          ++ "-" ++ name)), b < 256)
      ∧ (AssetIdentifier.createForSource name target source).id.length = 8 := by
  intro n t s
  refine ⟨rfl, rfl, sha3_512_length _, sha3_512_bytes_lt _, ?_⟩
  have hid : (AssetIdentifier.createForSource n t s).id =
      ((sha3_512 (utf8Encode (t.address ++ "-" ++ s.source ++ "-" ++ n))).take 4).foldl
        (fun acc b => acc ++ byteToHex b) "" := rfl
  rw [hid, foldlHex_length]
  have hlen : ((sha3_512 (utf8Encode (t.address ++ "-" ++ s.source ++ "-" ++ n))).take 4).length = 4 := by
    rw [List.length_take, sha3_512_length]
    omega
  rw [hlen]
  rfl

theorem listIsInitial_append (p r : List Char) :
    listIsInitial p (p ++ r) = true := by
  induction p with
  | nil => rfl
  | cons a as ih => simp [listIsInitial, ih]

/-- C8: the single proof transfer produced by `Publish` carries the
verbatim message `contractSignature ++ id` (that is,
`Swapable(v<r>):publish:<id>`) addressed to the registry account and
signed by the target; the Registry's scan for the same revision accepts
that message by its signature test and extracts back exactly the
shares-asset id; and in general, acceptance and extraction recover the id
of every message of that shape. -/
theorem publish_registry_roundtrip_spec :
    (∀ e : Executable,
      e.publishTransactions = [⟨.transfer e.context.parameters.deadline
        (getAccountInput e.context "registry" emptyAccount).address []
        (.plain (contractSignature e.context.revision ++ e.identifier.id))
        e.context.reader.networkType, e.target⟩]
      ∧ poolScanAccepts e.context.revision e.publishDescriptor = true
      ∧ poolScanIdentifier e.context.revision e.publishDescriptor =
          e.identifier.id)
    ∧ (∀ (revision : Nat) (idStr : String),
        poolScanAccepts revision (contractSignature revision ++ idStr) = true
        ∧ poolScanIdentifier revision (contractSignature revision ++ idStr) =
            idStr) := by
  have hdesc : ∀ e : Executable, e.publishDescriptor =
      contractSignature e.context.revision ++ e.identifier.id := by
    intro e
    rw [Executable.publishDescriptor, contractSignature]
    rw [String.append_assoc ("Swapable(v" ++ toString e.context.revision) ")" ":publish:"]
    rfl
  have haccept : ∀ (revision : Nat) (idStr : String),
      poolScanAccepts revision (contractSignature revision ++ idStr) = true := by
    intro revision idStr
    rw [poolScanAccepts, strStarts, String.data_append]
    exact listIsInitial_append _ _
  have hextract : ∀ (revision : Nat) (idStr : String),
      poolScanIdentifier revision (contractSignature revision ++ idStr) = idStr := by
    intro revision idStr
    rw [poolScanIdentifier, strDropChars, String.data_append]
    have hl : (contractSignature revision).length =
        (contractSignature revision).data.length := rfl
    rw [hl, List.drop_left]
  refine ⟨fun e => ⟨?_, ?_, ?_⟩, fun revision idStr =>
    ⟨haccept revision idStr, hextract revision idStr⟩⟩
  · rw [Executable.publishTransactions, hdesc e]
  · rw [hdesc e]
    exact haccept _ _
  · rw [hdesc e]
    exact hextract _ _

/-- C9 counterexample: with a snapshot previously held, a ledger read that
fails inside the observable pipeline (the `catchError(e => of(undefined))`
path) does **not** leave the previous snapshot in place: `synchronize`
overwrites it with `undefined`. -/
theorem synchronize_snapshot_counterexample :
    (AutomatedPool.synchronize ⟨some ⟨⟨"DEAD", "POOL"⟩, 100⟩, some ⟨[]⟩⟩
        .caughtError .caughtError).1.mosaicInfo ≠
      (⟨some ⟨⟨"DEAD", "POOL"⟩, 100⟩, some ⟨[]⟩⟩ :
        AutomatedPoolState).mosaicInfo := by
  decide

/-- C9 (amended): `synchronize` always completes and returns `true`; a
ledger-read failure caught inside the observable pipeline replaces the
held snapshot half with `undefined`, while only an exception thrown
outside the pipeline leaves the previous value (possibly `undefined` on a
first call); a successful read installs the fresh value; and an operation
that requires the snapshot (here `AddLiquidity`) then reports not-allowed
via `canExecute` rather than throwing. -/
theorem synchronize_spec :
    (∀ (st : AutomatedPoolState) (mr : ReadOutcome MosaicInfo)
        (rr : ReadOutcome AccountInfo),
      (AutomatedPool.synchronize st mr rr).2 = true
      ∧ (AutomatedPool.synchronize st mr rr).1.mosaicInfo = syncField st.mosaicInfo mr
      ∧ (AutomatedPool.synchronize st mr rr).1.reserveInfo = syncField st.reserveInfo rr
      ∧ syncField st.mosaicInfo ReadOutcome.caughtError = none
      ∧ syncField st.mosaicInfo ReadOutcome.thrownError = st.mosaicInfo)
    ∧ (∀ (e : Executable) (actor : PublicAccount),
        assertHasMandatoryArguments e.context addLiquidityArguments = .ok true →
        e.reserveInfo = none →
        e.addLiquidityCanExecute actor = .ok (AllowanceResult.mk1 false)) := by
  refine ⟨fun st mr rr => ⟨rfl, rfl, rfl, rfl, rfl⟩, fun e actor hassert hnone => ?_⟩
  simp [Executable.addLiquidityCanExecute, hassert, except_bind_ok, except_pure,
    hnone, AllowanceResult.mk1]

/-- Witness for C9 (amended): the concrete unsynchronized `AddLiquidity`
instance reports not-allowed without raising. -/
theorem synchronize_spec_witness :
    sampleAddNoSnapshot.addLiquidityCanExecute ⟨"X"⟩ =
      .ok (AllowanceResult.mk1 false) :=
  synchronize_spec.2 sampleAddNoSnapshot ⟨"X"⟩ (by decide) rfl

end Swapable
